import Mathlib

/-
Verification of the compressive-sensing reconstruction engine of the
neural-sense repository (reconstruction.py), as a shallow embedding.

Arrays are modelled as functions from natural-number indices to rationals,
with explicit sizes; a CUDA kernel thread guard (if index < size) becomes a
conditional on the index.  The transcendental helper math.sin(2*math.pi*u)
of the source is modelled by an abstract function parameter sin2pi, since
the structural claims under study are about the formulas surrounding it.
The function math.sqrt of the FISTA step-size recurrence is modelled by an
abstract parameter sq in the same way.
-/

namespace NeuralSense

/-- Per-thread body of the kernel reconstruct_ista_sparse_step: shrinkage of a
single amplitude value.  From reconstruction.py lines 274-283: subtract the
step size in the direction of the sign of the previous value, then snap to
zero rather than oscillate when the product with the previous value is
negative. -/
def shrink (step_size amplitude_previous : ℚ) : ℚ :=
  let a :=
    if amplitude_previous > 0 then amplitude_previous - step_size
    else if amplitude_previous < 0 then amplitude_previous + step_size
    else amplitude_previous
  if a * amplitude_previous < 0 then 0 else a

/-- Kernel reconstruct_ista_sparse_step over the whole amplitude array: each
thread with time_index below the array size applies the shrinkage body to its
entry; other indices are untouched. -/
def reconstruct_ista_sparse_step (T : ℕ) (step_size : ℚ) (amplitude : ℕ → ℚ) :
    ℕ → ℚ :=
  fun time_index =>
    if time_index < T then shrink step_size (amplitude time_index)
    else amplitude time_index

/-- C1: the shrinkage step computes the soft-threshold.  For a positive step
size, when the magnitude of the input exceeds the step size the result has
magnitude reduced by exactly the step size and the same sign as the input;
when the magnitude is at most the step size the result is exactly zero, and
in particular shrink of zero is zero. -/
theorem shrink_soft_threshold (x s : ℚ) (hs : 0 < s) :
    (s < |x| →
      |shrink s x| = |x| - s ∧ (0 < x → 0 < shrink s x) ∧
        (x < 0 → shrink s x < 0)) ∧
    (|x| ≤ s → shrink s x = 0) ∧ shrink s 0 = 0 := by
  refine ⟨fun h => ?_, fun h => ?_, by unfold shrink; norm_num⟩
  · rcases lt_trichotomy x 0 with hx | hx | hx
    · rw [abs_of_neg hx] at h ⊢
      have h1 : x + s < 0 := by linarith
      have e : shrink s x = x + s := by
        unfold shrink
        rw [if_neg (not_lt.mpr hx.le), if_pos hx, if_neg (by nlinarith)]
      rw [e, abs_of_neg h1]
      exact ⟨by ring, fun h0 => absurd h0 (not_lt.mpr hx.le), fun _ => h1⟩
    · subst hx; rw [abs_zero] at h; linarith
    · rw [abs_of_pos hx] at h ⊢
      have h1 : 0 < x - s := by linarith
      have e : shrink s x = x - s := by
        unfold shrink
        rw [if_pos hx, if_neg (by nlinarith)]
      rw [e, abs_of_pos h1]
      exact ⟨rfl, fun _ => h1, fun h0 => absurd hx (not_lt.mpr h0.le)⟩
  · rcases lt_trichotomy x 0 with hx | hx | hx
    · rw [abs_of_neg hx] at h
      unfold shrink
      rw [if_neg (not_lt.mpr hx.le), if_pos hx]
      rcases eq_or_lt_of_le (show (0 : ℚ) ≤ x + s by linarith) with h2 | h2
      · rw [← h2]; norm_num
      · rw [if_pos (mul_neg_of_pos_of_neg h2 hx)]
    · subst hx; unfold shrink; norm_num
    · rw [abs_of_pos hx] at h
      unfold shrink
      rw [if_pos hx]
      rcases eq_or_lt_of_le (show x - s ≤ 0 by linarith) with h2 | h2
      · rw [h2]; norm_num
      · rw [if_pos (mul_neg_of_neg_of_pos h2 hx)]

/-- Witness for shrink_soft_threshold at step size 1 with inputs 2 and 1/2. -/
theorem shrink_soft_threshold_witness :
    (0 : ℚ) < 1 ∧ ((1 : ℚ) < |(2 : ℚ)| ∧ |shrink 1 2| = |(2 : ℚ)| - 1) ∧
      (|(1/2 : ℚ)| ≤ 1 ∧ shrink 1 (1/2) = 0) :=
  ⟨by norm_num,
   ⟨by rw [abs_of_pos] <;> norm_num,
    ((shrink_soft_threshold 2 1 (by norm_num)).1
      (by rw [abs_of_pos] <;> norm_num)).1⟩,
   ⟨by rw [abs_of_pos] <;> norm_num,
    (shrink_soft_threshold (1/2) 1 (by norm_num)).2.1
      (by rw [abs_of_pos] <;> norm_num)⟩⟩

/-- Kernel reconstruct_ista_prediction_step: each thread with frequency_index
below the prediction array size F first writes the negated measured amplitude
into its prediction entry, then accumulates the matrix-vector product of the
Fourier operator row with the amplitude array over the T time samples.  From
reconstruction.py lines 290-294. -/
def reconstruct_ista_prediction_step (F T : ℕ) (frequency_amplitude : ℕ → ℚ)
    (amplitude : ℕ → ℚ) (fourier_transform : ℕ → ℕ → ℚ)
    (frequency_amplitude_prediction : ℕ → ℚ) : ℕ → ℚ :=
  fun frequency_index =>
    if frequency_index < F then
      (List.range T).foldl
        (fun acc time_index =>
          acc + fourier_transform frequency_index time_index * amplitude time_index)
        (-(frequency_amplitude frequency_index))
    else frequency_amplitude_prediction frequency_index

/-- Kernel reconstruct_sista_manifold_step: each thread with time_index below
the amplitude array size T subtracts, for every frequency, the operator entry
times the residual times the step size from its amplitude entry.  From
reconstruction.py lines 305-308. -/
def reconstruct_sista_manifold_step (F T : ℕ)
    (frequency_amplitude_prediction : ℕ → ℚ) (step_size : ℚ)
    (fourier_transform : ℕ → ℕ → ℚ) (amplitude : ℕ → ℚ) : ℕ → ℚ :=
  fun time_index =>
    if time_index < T then
      (List.range F).foldl
        (fun acc frequency_index =>
          acc - fourier_transform frequency_index time_index *
            frequency_amplitude_prediction frequency_index * step_size)
        (amplitude time_index)
    else amplitude time_index

/-- An accumulation loop over List.range equals the starting value plus the
corresponding finite sum. -/
theorem foldl_range_add (g : ℕ → ℚ) (c : ℚ) (n : ℕ) :
    (List.range n).foldl (fun acc t => acc + g t) c =
      c + ∑ t ∈ Finset.range n, g t := by
  induction n with
  | zero => simp
  | succ n ih =>
    rw [List.range_succ, List.foldl_append, ih, Finset.sum_range_succ]
    simp [add_assoc]

/-- A subtracting accumulation loop over List.range equals the starting value
minus the corresponding finite sum. -/
theorem foldl_range_sub (g : ℕ → ℚ) (c : ℚ) (n : ℕ) :
    (List.range n).foldl (fun acc t => acc - g t) c =
      c - ∑ t ∈ Finset.range n, g t := by
  induction n with
  | zero => simp
  | succ n ih =>
    rw [List.range_succ, List.foldl_append, ih, Finset.sum_range_succ]
    simp [sub_sub]

/-- C5: for every frequency index below F, the prediction kernel writes the
residual, namely the row of the operator matrix dotted with the candidate
amplitude minus the measured amplitude, and the written value does not depend
on the prior contents of the prediction array. -/
theorem prediction_step_residual (F T : ℕ)
    (frequency_amplitude amplitude : ℕ → ℚ) (fourier_transform : ℕ → ℕ → ℚ)
    (prediction_old prediction_other : ℕ → ℚ) (f : ℕ) (hf : f < F) :
    reconstruct_ista_prediction_step F T frequency_amplitude amplitude
        fourier_transform prediction_old f =
      (∑ t ∈ Finset.range T, fourier_transform f t * amplitude t) -
        frequency_amplitude f ∧
    reconstruct_ista_prediction_step F T frequency_amplitude amplitude
        fourier_transform prediction_old f =
      reconstruct_ista_prediction_step F T frequency_amplitude amplitude
        fourier_transform prediction_other f := by
  unfold reconstruct_ista_prediction_step
  rw [if_pos hf, foldl_range_add]
  exact ⟨by ring, by rw [if_pos hf]⟩

/-- Witness for prediction_step_residual with one frequency and two time
samples. -/
theorem prediction_step_residual_witness :
    (0 : ℕ) < 1 ∧
    reconstruct_ista_prediction_step 1 2 (fun _ => 5) (fun t => (t : ℚ) + 1)
        (fun _ _ => 2) (fun _ => 99) 0 =
      (∑ t ∈ Finset.range 2, (2 : ℚ) * ((t : ℚ) + 1)) - 5 :=
  ⟨by norm_num,
   (prediction_step_residual 1 2 (fun _ => 5) (fun t => (t : ℚ) + 1)
     (fun _ _ => 2) (fun _ => 99) (fun _ => 0) 0 (by norm_num)).1⟩

/-- Kernel reconstruct_ista_initialisation_step: each thread with time_index
below T zeroes its amplitude entry and then, for every frequency index, writes
the operator entry sin2pi (frequency times time) times time_step_coarse
divided by the LAST coarse time, and accumulates the adjoint-estimate seed
2 times that entry times (last time divided by time_step_coarse) times the
measured amplitude.  From reconstruction.py lines 250-257.  Returns the
written amplitude array and the written operator matrix. -/
def reconstruct_ista_initialisation_step (F T : ℕ) (sin2pi : ℚ → ℚ)
    (frequency frequency_amplitude : ℕ → ℚ) (time_step_coarse : ℚ)
    (time_coarse : ℕ → ℚ) (amplitude : ℕ → ℚ)
    (fourier_transform : ℕ → ℕ → ℚ) : (ℕ → ℚ) × (ℕ → ℕ → ℚ) :=
  (fun time_index =>
    if time_index < T then
      (List.range F).foldl
        (fun acc frequency_index =>
          acc + 2 * (sin2pi (frequency frequency_index * time_coarse time_index) *
              time_step_coarse / time_coarse (T - 1)) *
            (time_coarse (T - 1) / time_step_coarse) *
            frequency_amplitude frequency_index)
        0
    else amplitude time_index,
   fun frequency_index time_index =>
    if frequency_index < F ∧ time_index < T then
      sin2pi (frequency frequency_index * time_coarse time_index) *
        time_step_coarse / time_coarse (T - 1)
    else fourier_transform frequency_index time_index)

/-- Operator entry written by the kernel reconstruct_ista_complete, from
reconstruction.py line 211: the denominator is the grid span, last coarse time
minus first coarse time. -/
def fourier_entry_complete (T : ℕ) (sin2pi : ℚ → ℚ) (frequency : ℕ → ℚ)
    (time_coarse : ℕ → ℚ) (time_step_coarse : ℚ) (f t : ℕ) : ℚ :=
  sin2pi (frequency f * time_coarse t) * time_step_coarse /
    (time_coarse (T - 1) - time_coarse 0)

/-- Modelled from the spec: the claimed Fourier operator entry
sin2pi (frequency times time) times the coarse step divided by T_total, the
grid span, that is the last sample time minus the first sample time. -/
def fourier_entry_spec (sin2pi : ℚ → ℚ)
    (frequency_f time_t dt_coarse t_first t_last : ℚ) : ℚ :=
  sin2pi (frequency_f * time_t) * dt_coarse / (t_last - t_first)

/-- C4 counterexample: on the time grid with first sample 1 and last sample 3,
with unit coarse step and the constant-one model of sin2pi, the operator entry
written by the initialisation step is 1/3 while the spec formula with the grid
span as denominator gives 1/2. -/
theorem fourier_entry_span_counterexample :
    (reconstruct_ista_initialisation_step 1 2 (fun _ => 1) (fun _ => 1)
        (fun _ => 0) 1 (fun i => if i = 0 then 1 else 3) (fun _ => 0)
        (fun _ _ => 0)).2 0 0 ≠
      fourier_entry_spec (fun _ => 1) 1 1 1 1 3 := by
  unfold reconstruct_ista_initialisation_step fourier_entry_spec
  norm_num

/-- C4 amended: the initialisation kernel used by the FISTA and naive ISTA
drivers writes entry (f, t) = sin2pi (frequency_f times time_t) times
time_step_coarse divided by the LAST sample time; this equals the spec
formula, whose denominator is the grid span, exactly when the first sample
time is zero.  The kernel reconstruct_ista_complete does use the grid span as
the denominator. -/
theorem fourier_entry_amended (F T : ℕ) (sin2pi : ℚ → ℚ)
    (frequency frequency_amplitude : ℕ → ℚ) (time_step_coarse : ℚ)
    (time_coarse : ℕ → ℚ) (amplitude : ℕ → ℚ)
    (fourier_transform : ℕ → ℕ → ℚ) (f t : ℕ) (hf : f < F) (ht : t < T) :
    (reconstruct_ista_initialisation_step F T sin2pi frequency
        frequency_amplitude time_step_coarse time_coarse amplitude
        fourier_transform).2 f t =
      sin2pi (frequency f * time_coarse t) * time_step_coarse /
        time_coarse (T - 1) ∧
    fourier_entry_complete T sin2pi frequency time_coarse time_step_coarse f t =
      fourier_entry_spec sin2pi (frequency f) (time_coarse t) time_step_coarse
        (time_coarse 0) (time_coarse (T - 1)) ∧
    (time_coarse 0 = 0 →
      (reconstruct_ista_initialisation_step F T sin2pi frequency
          frequency_amplitude time_step_coarse time_coarse amplitude
          fourier_transform).2 f t =
        fourier_entry_spec sin2pi (frequency f) (time_coarse t)
          time_step_coarse (time_coarse 0) (time_coarse (T - 1))) := by
  simp only [reconstruct_ista_initialisation_step, fourier_entry_complete,
    fourier_entry_spec]
  rw [if_pos ⟨hf, ht⟩]
  exact ⟨rfl, trivial, fun h0 => by rw [h0, sub_zero]⟩

/-- Witness for fourier_entry_amended on a grid whose first sample time is
zero, where the initialisation entry and the spec formula agree. -/
theorem fourier_entry_amended_witness :
    (0 : ℕ) < 1 ∧ (0 : ℕ) < 2 ∧
    (fun i => if i = 0 then (0 : ℚ) else 3) 0 = 0 ∧
    (reconstruct_ista_initialisation_step 1 2 (fun _ => 1) (fun _ => 1)
        (fun _ => 0) 1 (fun i => if i = 0 then (0 : ℚ) else 3) (fun _ => 0)
        (fun _ _ => 0)).2 0 0 =
      fourier_entry_spec (fun _ => 1) 1
        ((fun i => if i = 0 then (0 : ℚ) else 3) 0) 1
        ((fun i => if i = 0 then (0 : ℚ) else 3) 0)
        ((fun i => if i = 0 then (0 : ℚ) else 3) 1) :=
  ⟨by norm_num, by norm_num, by norm_num,
   (fourier_entry_amended 1 2 (fun _ => 1) (fun _ => 1) (fun _ => 0) 1
      (fun i => if i = 0 then (0 : ℚ) else 3) (fun _ => 0) (fun _ _ => 0)
      0 0 (by norm_num) (by norm_num)).2.2 (by norm_num)⟩

/-- The arrays held by a reconstruction run: the borrowed time grid, measured
frequencies and measured frequency amplitudes, the operator matrix, the
candidate amplitude, and the residual buffer. -/
structure ReconState where
  time_coarse : ℕ → ℚ
  frequency : ℕ → ℚ
  frequency_amplitude : ℕ → ℚ
  fourier_transform : ℕ → ℕ → ℚ
  amplitude : ℕ → ℚ
  frequency_amplitude_prediction : ℕ → ℚ

/-- The prediction kernel as a transformer of the run state: the source writes
only the prediction buffer, reading the measured amplitudes, the candidate and
the operator. -/
def prediction_kernel (F T : ℕ) (s : ReconState) : ReconState :=
  { s with
    frequency_amplitude_prediction :=
      reconstruct_ista_prediction_step F T s.frequency_amplitude s.amplitude
        s.fourier_transform s.frequency_amplitude_prediction }

/-- The manifold gradient kernel as a transformer of the run state: the source
writes only the candidate amplitude, reading the residual and the operator. -/
def manifold_kernel (F T : ℕ) (step_size : ℚ) (s : ReconState) : ReconState :=
  { s with
    amplitude :=
      reconstruct_sista_manifold_step F T s.frequency_amplitude_prediction
        step_size s.fourier_transform s.amplitude }

/-- The shrinkage kernel as a transformer of the run state: the source writes
only the candidate amplitude. -/
def sparse_kernel (T : ℕ) (step_size : ℚ) (s : ReconState) : ReconState :=
  { s with amplitude := reconstruct_ista_sparse_step T step_size s.amplitude }

/-- C9: none of the three iteration kernels mutates the operator matrix, the
measured frequency array, the measured frequency-amplitude array, or the time
grid; the prediction kernel also leaves the candidate amplitude untouched,
and the gradient and shrinkage kernels leave the residual buffer untouched. -/
theorem iteration_kernels_frame (F T : ℕ) (step_size_manifold step_size_sparse : ℚ)
    (s : ReconState) :
    ((prediction_kernel F T s).fourier_transform = s.fourier_transform ∧
      (prediction_kernel F T s).frequency = s.frequency ∧
      (prediction_kernel F T s).frequency_amplitude = s.frequency_amplitude ∧
      (prediction_kernel F T s).time_coarse = s.time_coarse ∧
      (prediction_kernel F T s).amplitude = s.amplitude) ∧
    ((manifold_kernel F T step_size_manifold s).fourier_transform =
        s.fourier_transform ∧
      (manifold_kernel F T step_size_manifold s).frequency = s.frequency ∧
      (manifold_kernel F T step_size_manifold s).frequency_amplitude =
        s.frequency_amplitude ∧
      (manifold_kernel F T step_size_manifold s).time_coarse = s.time_coarse ∧
      (manifold_kernel F T step_size_manifold s).frequency_amplitude_prediction =
        s.frequency_amplitude_prediction) ∧
    ((sparse_kernel T step_size_sparse s).fourier_transform =
        s.fourier_transform ∧
      (sparse_kernel T step_size_sparse s).frequency = s.frequency ∧
      (sparse_kernel T step_size_sparse s).frequency_amplitude =
        s.frequency_amplitude ∧
      (sparse_kernel T step_size_sparse s).time_coarse = s.time_coarse ∧
      (sparse_kernel T step_size_sparse s).frequency_amplitude_prediction =
        s.frequency_amplitude_prediction) :=
  ⟨⟨rfl, rfl, rfl, rfl, rfl⟩, ⟨rfl, rfl, rfl, rfl, rfl⟩,
    ⟨rfl, rfl, rfl, rfl, rfl⟩⟩

/-- Sum over the T array entries of the squared difference of two amplitude
arrays, the quantity tested by the convergence guards of both drivers. -/
def sum_sq_diff (T : ℕ) (a b : ℕ → ℚ) : ℚ :=
  ∑ t ∈ Finset.range T, (a t - b t) ^ 2

/-- Loop state of Reconstruction.evaluate_fista: the current candidate, the
previous candidate snapshot, the scalar fast step size, and the residual
buffer. -/
structure FistaState where
  amplitude : ℕ → ℚ
  amplitude_previous : ℕ → ℚ
  fast_step_size : ℚ
  frequency_amplitude_prediction : ℕ → ℚ

/-- State before the FISTA loop, from reconstruction.py lines 119-121: the
previous amplitude is zero times the seed, the fast step size is one. -/
def fista_initial_state (seed frequency_amplitude_prediction : ℕ → ℚ) :
    FistaState :=
  { amplitude := seed,
    amplitude_previous := fun t => 0 * seed t,
    fast_step_size := 1,
    frequency_amplitude_prediction := frequency_amplitude_prediction }

/-- One iteration of the evaluate_fista loop, from reconstruction.py lines
124-134: snapshot the candidate, run the prediction, manifold and shrinkage
kernels in that order, advance the fast step size by the recurrence using its
previous value, and blend the kernel output with the snapshot using the
momentum coefficient (previous fast step size minus one) over the new fast
step size.  The square root of the source is the abstract parameter sq. -/
def fista_body (F T : ℕ) (sq : ℚ → ℚ) (step_size_sparse step_size_manifold : ℚ)
    (frequency_amplitude : ℕ → ℚ) (fourier_transform : ℕ → ℕ → ℚ)
    (s : FistaState) : FistaState :=
  let amplitude_previous := s.amplitude
  let frequency_amplitude_prediction :=
    reconstruct_ista_prediction_step F T frequency_amplitude s.amplitude
      fourier_transform s.frequency_amplitude_prediction
  let amplitude_manifold :=
    reconstruct_sista_manifold_step F T frequency_amplitude_prediction
      step_size_manifold fourier_transform s.amplitude
  let amplitude_sparse :=
    reconstruct_ista_sparse_step T step_size_sparse amplitude_manifold
  let fastStep_size_previous := s.fast_step_size
  let fast_step_size := (1 + sq (1 + 4 * s.fast_step_size ^ 2)) / 2
  { amplitude := fun t =>
      amplitude_sparse t +
        ((fastStep_size_previous - 1) / fast_step_size) *
          (amplitude_sparse t - amplitude_previous t),
    amplitude_previous := amplitude_previous,
    fast_step_size := fast_step_size,
    frequency_amplitude_prediction := frequency_amplitude_prediction }

/-- The evaluate_fista loop with explicit fuel: while the sum of squared
differences between the current and previous candidates exceeds one, run the
loop body; return the state as soon as the guard fails, and none when the
fuel runs out with the guard still true. -/
def fista_run (F T : ℕ) (sq : ℚ → ℚ) (step_size_sparse step_size_manifold : ℚ)
    (frequency_amplitude : ℕ → ℚ) (fourier_transform : ℕ → ℕ → ℚ) :
    ℕ → FistaState → Option FistaState
  | 0, s =>
    if sum_sq_diff T s.amplitude s.amplitude_previous > 1 then none else some s
  | fuel + 1, s =>
    if sum_sq_diff T s.amplitude s.amplitude_previous > 1 then
      fista_run F T sq step_size_sparse step_size_manifold frequency_amplitude
        fourier_transform fuel
        (fista_body F T sq step_size_sparse step_size_manifold
          frequency_amplitude fourier_transform s)
    else some s

/-- Loop state of Reconstruction.evaluate_naive_ista. -/
structure NaiveState where
  amplitude : ℕ → ℚ
  amplitude_previous : ℕ → ℚ
  frequency_amplitude_prediction : ℕ → ℚ

/-- One iteration of the evaluate_naive_ista loop, from reconstruction.py
lines 174-183: snapshot the candidate, then run the shrinkage kernel FIRST,
then the prediction kernel, then the manifold gradient kernel. -/
def naive_body (F T : ℕ) (step_size_sparse step_size_manifold : ℚ)
    (frequency_amplitude : ℕ → ℚ) (fourier_transform : ℕ → ℕ → ℚ)
    (s : NaiveState) : NaiveState :=
  let amplitude_previous := s.amplitude
  let amplitude_sparse :=
    reconstruct_ista_sparse_step T step_size_sparse s.amplitude
  let frequency_amplitude_prediction :=
    reconstruct_ista_prediction_step F T frequency_amplitude amplitude_sparse
      fourier_transform s.frequency_amplitude_prediction
  let amplitude_manifold :=
    reconstruct_sista_manifold_step F T frequency_amplitude_prediction
      step_size_manifold fourier_transform amplitude_sparse
  { amplitude := amplitude_manifold,
    amplitude_previous := amplitude_previous,
    frequency_amplitude_prediction := frequency_amplitude_prediction }

/-- The evaluate_naive_ista loop with explicit fuel, with the same guard as
the FISTA loop: continue while the sum of squared differences between the
current and previous candidates exceeds one. -/
def naive_run (F T : ℕ) (step_size_sparse step_size_manifold : ℚ)
    (frequency_amplitude : ℕ → ℚ) (fourier_transform : ℕ → ℕ → ℚ) :
    ℕ → NaiveState → Option NaiveState
  | 0, s =>
    if sum_sq_diff T s.amplitude s.amplitude_previous > 1 then none else some s
  | fuel + 1, s =>
    if sum_sq_diff T s.amplitude s.amplitude_previous > 1 then
      naive_run F T step_size_sparse step_size_manifold frequency_amplitude
        fourier_transform fuel
        (naive_body F T step_size_sparse step_size_manifold
          frequency_amplitude fourier_transform s)
    else some s

/-- C2: the FISTA fast step size starts at one and advances by the recurrence
next = (1 + sq (1 + 4 times current squared)) / 2, and each iteration blends
the three-step update computed from the previous candidate with the momentum
coefficient (previous fast step size minus one) over the new fast step
size. -/
theorem fista_momentum_recurrence (F T : ℕ) (sq : ℚ → ℚ)
    (step_size_sparse step_size_manifold : ℚ) (frequency_amplitude : ℕ → ℚ)
    (fourier_transform : ℕ → ℕ → ℚ) (s : FistaState) (seed pred0 : ℕ → ℚ)
    (t : ℕ) :
    (fista_initial_state seed pred0).fast_step_size = 1 ∧
    (fista_body F T sq step_size_sparse step_size_manifold frequency_amplitude
        fourier_transform s).fast_step_size =
      (1 + sq (1 + 4 * s.fast_step_size ^ 2)) / 2 ∧
    (fista_body F T sq step_size_sparse step_size_manifold frequency_amplitude
        fourier_transform s).amplitude t =
      reconstruct_ista_sparse_step T step_size_sparse
          (reconstruct_sista_manifold_step F T
            (reconstruct_ista_prediction_step F T frequency_amplitude
              s.amplitude fourier_transform s.frequency_amplitude_prediction)
            step_size_manifold fourier_transform s.amplitude) t +
        ((s.fast_step_size - 1) / ((1 + sq (1 + 4 * s.fast_step_size ^ 2)) / 2)) *
          (reconstruct_ista_sparse_step T step_size_sparse
              (reconstruct_sista_manifold_step F T
                (reconstruct_ista_prediction_step F T frequency_amplitude
                  s.amplitude fourier_transform
                  s.frequency_amplitude_prediction)
                step_size_manifold fourier_transform s.amplitude) t -
            s.amplitude t) :=
  ⟨rfl, rfl, rfl⟩

/-- A successful FISTA run ends in a state where the convergence quantity is
at most one. -/
theorem fista_run_some_le (F T : ℕ) (sq : ℚ → ℚ)
    (step_size_sparse step_size_manifold : ℚ) (frequency_amplitude : ℕ → ℚ)
    (fourier_transform : ℕ → ℕ → ℚ) :
    ∀ (fuel : ℕ) (s r : FistaState),
      fista_run F T sq step_size_sparse step_size_manifold frequency_amplitude
          fourier_transform fuel s = some r →
      sum_sq_diff T r.amplitude r.amplitude_previous ≤ 1 := by
  intro fuel
  induction fuel with
  | zero =>
    intro s r h
    unfold fista_run at h
    by_cases hg : sum_sq_diff T s.amplitude s.amplitude_previous > 1
    · rw [if_pos hg] at h; exact absurd h (by simp)
    · rw [if_neg hg] at h; cases h; exact not_lt.mp hg
  | succ fuel ih =>
    intro s r h
    unfold fista_run at h
    by_cases hg : sum_sq_diff T s.amplitude s.amplitude_previous > 1
    · rw [if_pos hg] at h; exact ih _ r h
    · rw [if_neg hg] at h; cases h; exact not_lt.mp hg

/-- A successful naive ISTA run ends in a state where the convergence
quantity is at most one. -/
theorem naive_run_some_le (F T : ℕ) (step_size_sparse step_size_manifold : ℚ)
    (frequency_amplitude : ℕ → ℚ) (fourier_transform : ℕ → ℕ → ℚ) :
    ∀ (fuel : ℕ) (s r : NaiveState),
      naive_run F T step_size_sparse step_size_manifold frequency_amplitude
          fourier_transform fuel s = some r →
      sum_sq_diff T r.amplitude r.amplitude_previous ≤ 1 := by
  intro fuel
  induction fuel with
  | zero =>
    intro s r h
    unfold naive_run at h
    by_cases hg : sum_sq_diff T s.amplitude s.amplitude_previous > 1
    · rw [if_pos hg] at h; exact absurd h (by simp)
    · rw [if_neg hg] at h; cases h; exact not_lt.mp hg
  | succ fuel ih =>
    intro s r h
    unfold naive_run at h
    by_cases hg : sum_sq_diff T s.amplitude s.amplitude_previous > 1
    · rw [if_pos hg] at h; exact ih _ r h
    · rw [if_neg hg] at h; cases h; exact not_lt.mp hg

/-- C3: both drivers stop exactly at the threshold one on the sum of squared
differences of consecutive candidates: a state the loop returns satisfies the
bound, a state already satisfying the bound is returned at once with no
iteration, and while the bound is exceeded the loop runs another body
iteration; for FISTA the compared arrays are the momentum-blended candidate
and its predecessor. -/
theorem loop_guard_threshold (F T : ℕ) (sq : ℚ → ℚ)
    (step_size_sparse step_size_manifold : ℚ) (frequency_amplitude : ℕ → ℚ)
    (fourier_transform : ℕ → ℕ → ℚ) (fuel : ℕ) (s r : FistaState)
    (ns nr : NaiveState) :
    (fista_run F T sq step_size_sparse step_size_manifold frequency_amplitude
        fourier_transform fuel s = some r →
      sum_sq_diff T r.amplitude r.amplitude_previous ≤ 1) ∧
    (sum_sq_diff T s.amplitude s.amplitude_previous ≤ 1 →
      fista_run F T sq step_size_sparse step_size_manifold frequency_amplitude
        fourier_transform fuel s = some s) ∧
    (sum_sq_diff T s.amplitude s.amplitude_previous > 1 →
      fista_run F T sq step_size_sparse step_size_manifold frequency_amplitude
          fourier_transform (fuel + 1) s =
        fista_run F T sq step_size_sparse step_size_manifold
          frequency_amplitude fourier_transform fuel
          (fista_body F T sq step_size_sparse step_size_manifold
            frequency_amplitude fourier_transform s)) ∧
    (naive_run F T step_size_sparse step_size_manifold frequency_amplitude
        fourier_transform fuel ns = some nr →
      sum_sq_diff T nr.amplitude nr.amplitude_previous ≤ 1) ∧
    (sum_sq_diff T ns.amplitude ns.amplitude_previous ≤ 1 →
      naive_run F T step_size_sparse step_size_manifold frequency_amplitude
        fourier_transform fuel ns = some ns) ∧
    (sum_sq_diff T ns.amplitude ns.amplitude_previous > 1 →
      naive_run F T step_size_sparse step_size_manifold frequency_amplitude
          fourier_transform (fuel + 1) ns =
        naive_run F T step_size_sparse step_size_manifold frequency_amplitude
          fourier_transform fuel
          (naive_body F T step_size_sparse step_size_manifold
            frequency_amplitude fourier_transform ns)) := by
  refine ⟨fista_run_some_le F T sq step_size_sparse step_size_manifold
      frequency_amplitude fourier_transform fuel s r,
    fun h => ?_, fun h => ?_,
    naive_run_some_le F T step_size_sparse step_size_manifold
      frequency_amplitude fourier_transform fuel ns nr,
    fun h => ?_, fun h => ?_⟩
  · cases fuel <;> · unfold fista_run; rw [if_neg (not_lt.mpr h)]
  · unfold fista_run; rw [if_pos h]; cases fuel <;> rfl
  · cases fuel <;> · unfold naive_run; rw [if_neg (not_lt.mpr h)]
  · unfold naive_run; rw [if_pos h]; cases fuel <;> rfl

/-- A converged concrete FISTA loop state: candidate and snapshot agree. -/
def fista_state_zero : FistaState :=
  ⟨fun _ => 0, fun _ => 0, 1, fun _ => 0⟩

/-- A concrete FISTA loop state with convergence quantity four. -/
def fista_state_far : FistaState :=
  ⟨fun _ => 2, fun _ => 0, 1, fun _ => 0⟩

/-- A converged concrete naive ISTA loop state. -/
def naive_state_zero : NaiveState :=
  ⟨fun _ => 0, fun _ => 0, fun _ => 0⟩

/-- A concrete naive ISTA loop state with convergence quantity four. -/
def naive_state_far : NaiveState :=
  ⟨fun _ => 2, fun _ => 0, fun _ => 0⟩

/-- Witness for loop_guard_threshold with one time sample: a converged state
is returned at once and satisfies the bound, and a non-converged state makes
each loop take a body step. -/
theorem loop_guard_threshold_witness :
    (sum_sq_diff 1 fista_state_zero.amplitude fista_state_zero.amplitude_previous ≤ 1 ∧
      fista_run 1 1 (fun q => q) 1 1 (fun _ => 0) (fun _ _ => 0) 0
        fista_state_zero = some fista_state_zero) ∧
    (fista_run 1 1 (fun q => q) 1 1 (fun _ => 0) (fun _ _ => 0) 0
        fista_state_zero = some fista_state_zero ∧
      sum_sq_diff 1 fista_state_zero.amplitude
        fista_state_zero.amplitude_previous ≤ 1) ∧
    (sum_sq_diff 1 fista_state_far.amplitude fista_state_far.amplitude_previous > 1 ∧
      fista_run 1 1 (fun q => q) 1 1 (fun _ => 0) (fun _ _ => 0) 1
          fista_state_far =
        fista_run 1 1 (fun q => q) 1 1 (fun _ => 0) (fun _ _ => 0) 0
          (fista_body 1 1 (fun q => q) 1 1 (fun _ => 0) (fun _ _ => 0)
            fista_state_far)) ∧
    (sum_sq_diff 1 naive_state_zero.amplitude naive_state_zero.amplitude_previous ≤ 1 ∧
      naive_run 1 1 1 1 (fun _ => 0) (fun _ _ => 0) 0 naive_state_zero =
        some naive_state_zero) ∧
    (naive_run 1 1 1 1 (fun _ => 0) (fun _ _ => 0) 0 naive_state_zero =
        some naive_state_zero ∧
      sum_sq_diff 1 naive_state_zero.amplitude
        naive_state_zero.amplitude_previous ≤ 1) ∧
    (sum_sq_diff 1 naive_state_far.amplitude naive_state_far.amplitude_previous > 1 ∧
      naive_run 1 1 1 1 (fun _ => 0) (fun _ _ => 0) 1 naive_state_far =
        naive_run 1 1 1 1 (fun _ => 0) (fun _ _ => 0) 0
          (naive_body 1 1 1 1 (fun _ => 0) (fun _ _ => 0) naive_state_far)) := by
  have hz : sum_sq_diff 1 fista_state_zero.amplitude
      fista_state_zero.amplitude_previous ≤ 1 := by
    norm_num [sum_sq_diff, fista_state_zero]
  have hf : sum_sq_diff 1 fista_state_far.amplitude
      fista_state_far.amplitude_previous > 1 := by
    norm_num [sum_sq_diff, fista_state_far, Finset.sum_range_succ]
  have hnz : sum_sq_diff 1 naive_state_zero.amplitude
      naive_state_zero.amplitude_previous ≤ 1 := by
    norm_num [sum_sq_diff, naive_state_zero]
  have hnf : sum_sq_diff 1 naive_state_far.amplitude
      naive_state_far.amplitude_previous > 1 := by
    norm_num [sum_sq_diff, naive_state_far, Finset.sum_range_succ]
  have hret : fista_run 1 1 (fun q => q) 1 1 (fun _ => 0) (fun _ _ => 0) 0
      fista_state_zero = some fista_state_zero :=
    (loop_guard_threshold 1 1 (fun q => q) 1 1 (fun _ => 0) (fun _ _ => 0) 0
      fista_state_zero fista_state_zero naive_state_zero
      naive_state_zero).2.1 hz
  have hnret : naive_run 1 1 1 1 (fun _ => 0) (fun _ _ => 0) 0
      naive_state_zero = some naive_state_zero :=
    (loop_guard_threshold 1 1 (fun q => q) 1 1 (fun _ => 0) (fun _ _ => 0) 0
      fista_state_zero fista_state_zero naive_state_zero
      naive_state_zero).2.2.2.2.1 hnz
  refine ⟨⟨hz, hret⟩,
    ⟨hret, (loop_guard_threshold 1 1 (fun q => q) 1 1 (fun _ => 0)
      (fun _ _ => 0) 0 fista_state_zero fista_state_zero naive_state_zero
      naive_state_zero).1 hret⟩,
    ⟨hf, (loop_guard_threshold 1 1 (fun q => q) 1 1 (fun _ => 0)
      (fun _ _ => 0) 0 fista_state_far fista_state_far naive_state_zero
      naive_state_zero).2.2.1 hf⟩,
    ⟨hnz, hnret⟩,
    ⟨hnret, (loop_guard_threshold 1 1 (fun q => q) 1 1 (fun _ => 0)
      (fun _ _ => 0) 0 fista_state_zero fista_state_zero naive_state_zero
      naive_state_zero).2.2.2.1 hnret⟩,
    ⟨hnf, (loop_guard_threshold 1 1 (fun q => q) 1 1 (fun _ => 0)
      (fun _ _ => 0) 0 fista_state_zero fista_state_zero naive_state_far
      naive_state_far).2.2.2.2.2 hnf⟩⟩

/-- Modelled from the spec: a naive ISTA loop body in the order the spec
states, Forward Predictor first, then Manifold Gradient Step, then Sparsity
Shrinkage Step, applied directly to the candidate. -/
def ista_spec_order_body (F T : ℕ) (step_size_sparse step_size_manifold : ℚ)
    (frequency_amplitude : ℕ → ℚ) (fourier_transform : ℕ → ℕ → ℚ)
    (s : NaiveState) : NaiveState :=
  let amplitude_previous := s.amplitude
  let frequency_amplitude_prediction :=
    reconstruct_ista_prediction_step F T frequency_amplitude s.amplitude
      fourier_transform s.frequency_amplitude_prediction
  let amplitude_manifold :=
    reconstruct_sista_manifold_step F T frequency_amplitude_prediction
      step_size_manifold fourier_transform s.amplitude
  let amplitude_sparse :=
    reconstruct_ista_sparse_step T step_size_sparse amplitude_manifold
  { amplitude := amplitude_sparse,
    amplitude_previous := amplitude_previous,
    frequency_amplitude_prediction := frequency_amplitude_prediction }

/-- C8 counterexample: with one frequency, one time sample, unit operator
entry, zero measured amplitude, shrinkage step one, manifold step one half,
and candidate three, the naive ISTA loop body from the source yields
amplitude one while the order stated by the spec yields one half. -/
theorem naive_order_counterexample :
    (naive_body 1 1 1 (1/2) (fun _ => 0) (fun _ _ => 1)
        ⟨fun _ => 3, fun _ => 0, fun _ => 0⟩).amplitude 0 ≠
      (ista_spec_order_body 1 1 1 (1/2) (fun _ => 0) (fun _ _ => 1)
        ⟨fun _ => 3, fun _ => 0, fun _ => 0⟩).amplitude 0 := by
  norm_num [naive_body, ista_spec_order_body, reconstruct_ista_sparse_step,
    reconstruct_ista_prediction_step, reconstruct_sista_manifold_step, shrink,
    List.range_succ]

/-- C8 amended: every iteration of the evaluate_naive_ista loop applies the
Sparsity Shrinkage Step FIRST, then the Forward Predictor, then the Manifold
Gradient Step; the predictor and gradient read the already-shrunk
candidate. -/
theorem naive_order_amended (F T : ℕ) (step_size_sparse step_size_manifold : ℚ)
    (frequency_amplitude : ℕ → ℚ) (fourier_transform : ℕ → ℕ → ℚ)
    (s : NaiveState) :
    (naive_body F T step_size_sparse step_size_manifold frequency_amplitude
        fourier_transform s).amplitude =
      reconstruct_sista_manifold_step F T
        (reconstruct_ista_prediction_step F T frequency_amplitude
          (reconstruct_ista_sparse_step T step_size_sparse s.amplitude)
          fourier_transform s.frequency_amplitude_prediction)
        step_size_manifold fourier_transform
        (reconstruct_ista_sparse_step T step_size_sparse s.amplitude) ∧
    (naive_body F T step_size_sparse step_size_manifold frequency_amplitude
        fourier_transform s).frequency_amplitude_prediction =
      reconstruct_ista_prediction_step F T frequency_amplitude
        (reconstruct_ista_sparse_step T step_size_sparse s.amplitude)
        fourier_transform s.frequency_amplitude_prediction ∧
    (naive_body F T step_size_sparse step_size_manifold frequency_amplitude
        fourier_transform s).amplitude_previous = s.amplitude :=
  ⟨rfl, rfl, rfl⟩

/-- C10: when the adjoint-estimate seed written by the initialisation step
has sum of squared entries at most one, the FISTA loop runs zero iterations,
whatever the fuel: the run returns the initial state at once, and the final
amplitude is the seed unchanged. -/
theorem fista_zero_iterations (F T : ℕ) (sq : ℚ → ℚ)
    (step_size_sparse step_size_manifold : ℚ) (frequency_amplitude : ℕ → ℚ)
    (fourier_transform : ℕ → ℕ → ℚ) (fuel : ℕ) (sin2pi : ℚ → ℚ)
    (frequency frequency_amplitude_in : ℕ → ℚ) (time_step_coarse : ℚ)
    (time_coarse amplitude_in : ℕ → ℚ) (fourier_transform_in : ℕ → ℕ → ℚ)
    (pred0 : ℕ → ℚ)
    (h : ∑ t ∈ Finset.range T,
        ((reconstruct_ista_initialisation_step F T sin2pi frequency
            frequency_amplitude_in time_step_coarse time_coarse amplitude_in
            fourier_transform_in).1 t) ^ 2 ≤ 1) :
    fista_run F T sq step_size_sparse step_size_manifold frequency_amplitude
        fourier_transform fuel
        (fista_initial_state
          (reconstruct_ista_initialisation_step F T sin2pi frequency
            frequency_amplitude_in time_step_coarse time_coarse amplitude_in
            fourier_transform_in).1 pred0) =
      some (fista_initial_state
        (reconstruct_ista_initialisation_step F T sin2pi frequency
          frequency_amplitude_in time_step_coarse time_coarse amplitude_in
          fourier_transform_in).1 pred0) ∧
    (fista_initial_state
        (reconstruct_ista_initialisation_step F T sin2pi frequency
          frequency_amplitude_in time_step_coarse time_coarse amplitude_in
          fourier_transform_in).1 pred0).amplitude =
      (reconstruct_ista_initialisation_step F T sin2pi frequency
        frequency_amplitude_in time_step_coarse time_coarse amplitude_in
        fourier_transform_in).1 := by
  have hg : ¬ sum_sq_diff T
      (fista_initial_state
        (reconstruct_ista_initialisation_step F T sin2pi frequency
          frequency_amplitude_in time_step_coarse time_coarse amplitude_in
          fourier_transform_in).1 pred0).amplitude
      (fista_initial_state
        (reconstruct_ista_initialisation_step F T sin2pi frequency
          frequency_amplitude_in time_step_coarse time_coarse amplitude_in
          fourier_transform_in).1 pred0).amplitude_previous > 1 := by
    refine not_lt.mpr ?_
    calc sum_sq_diff T _ _ =
        ∑ t ∈ Finset.range T,
          ((reconstruct_ista_initialisation_step F T sin2pi frequency
            frequency_amplitude_in time_step_coarse time_coarse amplitude_in
            fourier_transform_in).1 t) ^ 2 := by
          unfold sum_sq_diff fista_initial_state
          exact Finset.sum_congr rfl (fun t _ => by ring)
      _ ≤ 1 := h
  refine ⟨?_, rfl⟩
  cases fuel <;> · unfold fista_run; rw [if_neg hg]

/-- Witness for fista_zero_iterations: with one time sample, one frequency,
and zero measured amplitudes, the seed is zero, its squared sum is at most
one, and the run returns the initial state. -/
theorem fista_zero_iterations_witness :
    (∑ t ∈ Finset.range 1,
        ((reconstruct_ista_initialisation_step 1 1 (fun _ => 1) (fun _ => 1)
            (fun _ => 0) 1 (fun _ => 1) (fun _ => 0) (fun _ _ => 0)).1 t) ^ 2
      ≤ 1) ∧
    fista_run 1 1 (fun q => q) 1 1 (fun _ => 0) (fun _ _ => 0) 3
        (fista_initial_state
          (reconstruct_ista_initialisation_step 1 1 (fun _ => 1) (fun _ => 1)
            (fun _ => 0) 1 (fun _ => 1) (fun _ => 0) (fun _ _ => 0)).1
          (fun _ => 0)) =
      some (fista_initial_state
        (reconstruct_ista_initialisation_step 1 1 (fun _ => 1) (fun _ => 1)
          (fun _ => 0) 1 (fun _ => 1) (fun _ => 0) (fun _ _ => 0)).1
        (fun _ => 0)) := by
  have h : ∑ t ∈ Finset.range 1,
      ((reconstruct_ista_initialisation_step 1 1 (fun _ => 1) (fun _ => 1)
          (fun _ => 0) 1 (fun _ => 1) (fun _ => 0) (fun _ _ => 0)).1 t) ^ 2
      ≤ 1 := by
    norm_num [reconstruct_ista_initialisation_step, List.range_succ]
  exact ⟨h,
    (fista_zero_iterations 1 1 (fun q => q) 1 1 (fun _ => 0) (fun _ _ => 0) 3
      (fun _ => 1) (fun _ => 1) (fun _ => 0) 1 (fun _ => 1) (fun _ => 0)
      (fun _ _ => 0) (fun _ => 0) h).1⟩

/-- Population size np.sum(frequency < frequency_cutoff) of the source: the
number of entries of the frequency array strictly below the cutoff. -/
def count_below (frequency_cutoff : ℚ) (frequency : List ℚ) : ℕ :=
  (frequency.filter (fun x => decide (x < frequency_cutoff))).length

/-- Models Reconstruction.read_frequencies_directly from reconstruction.py
lines 23-29.  The call np.random.choice(range(population), number_of_samples)
is modelled by the draws argument, the list of indices the random source
returns: with the default replace=True of the source each draw is an
independent uniform index below the population size, so any index list of
length number_of_samples with every entry below the population size is a
possible outcome; choice raises ValueError exactly when the population is
empty and a nonzero sample size is requested.  The selected frequency and
amplitude lists index the ORIGINAL input arrays at the drawn indices, as the
source line frequency[permutation] does. -/
def read_frequencies_directly (frequency frequency_amplitude : List ℚ)
    (number_of_samples : ℕ) (frequency_cutoff : ℚ) (draws : List ℕ) :
    Except String (List ℚ × List ℚ) :=
  if count_below frequency_cutoff frequency = 0 ∧ number_of_samples ≠ 0 then
    Except.error "ValueError"
  else
    Except.ok (draws.map (fun i => frequency.getD i 0),
      draws.map (fun i => frequency_amplitude.getD i 0))

/-- C6: the sample ingestion of the source violates the claim on two counts.
With frequency array [5000, 100] and cutoff 3000 the population size is one,
the only possible draw list of length one is [0], and the stored selection is
the ORIGINAL entry 5000, which is not below the cutoff.  With frequency array
[100, 200] the draw list [0, 0] is a possible outcome of the
with-replacement choice of the source, and the stored selection repeats an
index. -/
theorem ingest_selection_bug :
    (∀ d ∈ ([0] : List ℕ), d < count_below 3000 [5000, 100]) ∧
    ([0] : List ℕ).length = 1 ∧
    read_frequencies_directly [5000, 100] [1, 2] 1 3000 [0] =
      Except.ok ([5000], [1]) ∧
    ¬ (5000 : ℚ) < 3000 ∧
    (∀ d ∈ ([0, 0] : List ℕ), d < count_below 3000 [100, 200]) ∧
    ([0, 0] : List ℕ).length = 2 ∧
    read_frequencies_directly [100, 200] [1, 2] 2 3000 [0, 0] =
      Except.ok ([100, 100], [1, 1]) ∧
    ¬ ([0, 0] : List ℕ).Nodup := by
  refine ⟨?_, rfl, ?_, by norm_num, ?_, rfl, ?_, by simp⟩
  · intro d hd
    simp only [List.mem_singleton] at hd
    subst hd
    norm_num [count_below]
  · norm_num [read_frequencies_directly, count_below]
  · intro d hd
    simp only [List.mem_cons, List.mem_singleton] at hd
    rcases hd with h | h | h <;> first | (subst h; norm_num [count_below]) | cases h
  · norm_num [read_frequencies_directly, count_below]

/-- C7: requesting more samples than the population size does not fail in the
source: with frequency array [100, 200] and cutoff 3000 the population size
is two, yet a request for five samples succeeds, because the source passes no
replace=False to np.random.choice and choice with replacement accepts any
sample size over a nonempty population. -/
theorem ingest_oversample_bug :
    count_below 3000 [100, 200] < 5 ∧
    (∀ d ∈ ([0, 1, 0, 1, 0] : List ℕ), d < count_below 3000 [100, 200]) ∧
    ([0, 1, 0, 1, 0] : List ℕ).length = 5 ∧
    read_frequencies_directly [100, 200] [1, 2] 5 3000 [0, 1, 0, 1, 0] =
      Except.ok ([100, 200, 100, 200, 100], [1, 2, 1, 2, 1]) := by
  refine ⟨by norm_num [count_below], ?_, rfl, ?_⟩
  · intro d hd
    simp only [List.mem_cons, List.mem_singleton] at hd
    rcases hd with h | h | h | h | h | h <;>
      first | (subst h; norm_num [count_below]) | cases h
  · norm_num [read_frequencies_directly, count_below]

end NeuralSense
